import Mathlib

/-!
Shallow embedding of the IP-address reconciliation engine of `src/src/lib/ip.rs`
(nispor).

Modelling conventions:

* Rust `String`/`&str` values are modelled as Lean `String` (a list of
  characters).  All address texts and index keys handled by the engine are
  ASCII renderings of IP addresses, where character-level and byte-level views
  coincide.  For the classifier-totality analysis, where Rust's UTF-8
  byte-slice semantics matter (`&ip[..3]` panics when byte offset 3 is not a
  character boundary), a separate byte-level model (`..._b` functions over
  UTF-8 byte lists) is used; `none` models a Rust panic.
* Rust `HashSet<IpAddrConf>` is modelled as a duplicate-free list built by
  insertion (`toHashSet`); `HashMap` is modelled as an association list with
  `List.lookup`.  Hash iteration order is arbitrary in Rust; every property
  proved below is insensitive to the enumeration order.
* The kernel netlink channel is external: mutation calls are recorded as a
  trace of `NlOp` values and are modelled as succeeding (transport failures
  are external nondeterminism outside the program text).  `std::net`'s
  `Ipv4Addr::from_str` / `Ipv6Addr::from_str` are external library code and
  are modelled as parameters `parse4 parse6 : String → Bool` telling which
  texts parse; the structured value is determined by the text.
* `u8` prefix lengths are modelled as `Nat`; `str::parse::<u8>` is modelled
  exactly (optional leading plus sign, decimal digits, value at most 255).
* A raw `AddressMessage` is opaque to the engine beyond being the handle for
  a deletion; it is modelled as a `Nat` tag.  A delete trace record carries
  both the index key it was found under and that handle.
* Execution traces are `List NlOp × Option NisporError`: the operations
  issued in order, and the terminal error if the pass aborted (operations
  already issued are kept — the code never rolls back).
-/

namespace Nispor

/-- UTF-8 encoding of one character, as the list of its byte values.
Mirrors the Rust in-memory representation of `str`. -/
def charUtf8 (c : Char) : List Nat :=
  let n := c.toNat
  if n < 128 then [n]
  else if n < 2048 then [192 + n / 64, 128 + n % 64]
  else if n < 65536 then [224 + n / 4096, 128 + n / 64 % 64, 128 + n % 64]
  else [240 + n / 262144, 128 + n / 4096 % 64, 128 + n / 64 % 64, 128 + n % 64]

/-- The UTF-8 bytes of a string (Rust `str::as_bytes`). -/
def utf8Bytes (s : String) : List Nat :=
  s.data.flatMap charUtf8

/-- A UTF-8 continuation byte (`0b10xxxxxx`).  Rust string slicing panics
when the cut position lands on one of these. -/
def isUtf8ContByte (b : Nat) : Bool :=
  128 ≤ b && b < 192

/-- Byte-level model of `is_ipv6_addr` (ip.rs:158-160): the text contains a
colon (ASCII 58).  Total: a plain byte scan cannot panic. -/
def is_ipv6_addr_b (addr : List Nat) : Bool :=
  addr.contains 58

/-- Byte-level model of `is_ipv6_unicast_link_local_full` (ip.rs:134-139).
`none` models the Rust panic of the slice `&ip[..3]` when the string is at
least 3 bytes long but byte offset 3 is not a character boundary (i.e. byte 3
exists and is a UTF-8 continuation byte).  Byte lists 102/101/56/57/97/98 are
the ASCII codes of `f` `e` `8` `9` `a` `b`. -/
def is_ipv6_unicast_link_local_full_b (ip : List Nat) (prefix_len : Nat) :
    Option Bool :=
  if !(is_ipv6_addr_b ip) then some false
  else if ip.length < 3 then some false
  else if isUtf8ContByte (ip.getD 3 0) then none
  else
    some ([[102, 101, 56], [102, 101, 57], [102, 101, 97],
           [102, 101, 98]].contains (ip.take 3) && decide (10 ≤ prefix_len))

/-- Rust `str::split(sep)` at the byte level, for an ASCII separator (an
ASCII byte never occurs inside a multi-byte UTF-8 character, so byte-level
splitting agrees with character-level splitting). -/
def splitByte (sep : Nat) : List Nat → List (List Nat)
  | [] => [[]]
  | b :: rest =>
    let r := splitByte sep rest
    if b = sep then [] :: r
    else
      match r with
      | [] => [[b]]
      | h :: t => (b :: h) :: t

/-- Model of `str::parse::<u8>` on a byte string: an optional leading plus
sign (byte 43), then at least one decimal digit (bytes 48-57), value within
the `u8` range. -/
def parse_u8_b (s : List Nat) : Option Nat :=
  let ds :=
    match s with
    | 43 :: rest => rest
    | _ => s
  if ds = [] then none
  else if ds.all (fun b => 48 ≤ b && b ≤ 57) then
    let v := ds.foldl (fun n b => n * 10 + (b - 48)) 0
    if v ≤ 255 then some v else none
  else none

/-- Byte-level model of `is_ipv6_unicast_link_local` (ip.rs:143-156): split
the combined `address/prefix` text on `/` (byte 47), require exactly two
pieces and a parsable `u8` suffix, then delegate.  `none` propagates a panic
of the delegate. -/
def is_ipv6_unicast_link_local_b (address_full : List Nat) : Option Bool :=
  let v := splitByte 47 address_full
  if v.length = 2 then
    match parse_u8_b (v.getD 1 []) with
    | some plen => is_ipv6_unicast_link_local_full_b (v.getD 0 []) plen
    | none => some false
  else some false

/-- Character-level model of `is_ipv6_addr` (ip.rs:158-160), used by the
reconciliation engine, whose address texts are ASCII. -/
def is_ipv6_addr (addr : String) : Bool :=
  addr.data.contains ':'

/-- Character-level model of `is_ipv6_unicast_link_local_full`
(ip.rs:134-139): IPv6 syntax, at least three characters, first three
characters among `fe8`/`fe9`/`fea`/`feb`, prefix length at least 10.  On
ASCII input this agrees with the byte-level model (and the Rust slice cannot
panic there). -/
def is_ipv6_unicast_link_local_full (ip : String) (prefix_len : Nat) : Bool :=
  is_ipv6_addr ip && decide (3 ≤ ip.data.length)
    && ["fe8", "fe9", "fea", "feb"].contains (String.mk (ip.data.take 3))
    && decide (10 ≤ prefix_len)

/-- Rust `str::split(sep)` at the character level. -/
def splitChar (sep : Char) : List Char → List (List Char)
  | [] => [[]]
  | c :: rest =>
    let r := splitChar sep rest
    if c = sep then [] :: r
    else
      match r with
      | [] => [[c]]
      | h :: t => (c :: h) :: t

/-- Model of `str::parse::<u8>` on characters: optional leading plus sign,
then at least one decimal digit, value within the `u8` range. -/
def parse_u8_s (s : List Char) : Option Nat :=
  let ds :=
    match s with
    | '+' :: rest => rest
    | _ => s
  if ds = [] then none
  else if ds.all (fun c => c.isDigit) then
    let v := ds.foldl (fun n c => n * 10 + (c.toNat - 48)) 0
    if v ≤ 255 then some v else none
  else none

/-- Character-level model of `is_ipv6_unicast_link_local` (ip.rs:143-156). -/
def is_ipv6_unicast_link_local (address_full : String) : Bool :=
  let v := splitChar '/' address_full.data
  if v.length = 2 then
    match parse_u8_s (v.getD 1 []) with
    | some plen => is_ipv6_unicast_link_local_full (String.mk (v.getD 0 [])) plen
    | none => false
  else false

/-- Structure `Ipv4AddrInfo` (ip.rs:33-43). -/
structure Ipv4AddrInfo where
  address : String
  prefix_len : Nat
  peer : Option String
  valid_lft : String
  preferred_lft : String
deriving DecidableEq

/-- Structure `Ipv4Info` (ip.rs:28-31). -/
structure Ipv4Info where
  addresses : List Ipv4AddrInfo
deriving DecidableEq

/-- Structure `Ipv6AddrInfo` (ip.rs:50-58). -/
structure Ipv6AddrInfo where
  address : String
  prefix_len : Nat
  valid_lft : String
  preferred_lft : String
deriving DecidableEq

/-- Structure `Ipv6Info` (ip.rs:45-48). -/
structure Ipv6Info where
  addresses : List Ipv6AddrInfo
deriving DecidableEq

/-- Structure `IpAddrConf` (ip.rs:101-107): the unit of set comparison. -/
structure IpAddrConf where
  address : String
  prefix_len : Nat
deriving DecidableEq

/-- Structure `IpConf` (ip.rs:60-63). -/
structure IpConf where
  addresses : List IpAddrConf
deriving DecidableEq

/-- Enumeration `IpFamily` (ip.rs:95-99). -/
inductive IpFamily where
  | Ipv4
  | Ipv6
deriving DecidableEq

/-- Conversion `impl From<&Ipv4Info> for IpConf` (ip.rs:65-78): keep records whose
`valid_lft` is `"forever"`, dropping peer and preferred lifetime. -/
def ipConfOfIpv4Info (info : Ipv4Info) : IpConf :=
  { addresses :=
      (info.addresses.filter (fun a => a.valid_lft == "forever")).map
        (fun a => { address := a.address, prefix_len := a.prefix_len }) }

/-- Conversion `impl From<&Ipv6Info> for IpConf` (ip.rs:80-93). -/
def ipConfOfIpv6Info (info : Ipv6Info) : IpConf :=
  { addresses :=
      (info.addresses.filter (fun a => a.valid_lft == "forever")).map
        (fun a => { address := a.address, prefix_len := a.prefix_len }) }

/-- Modelled from the spec: `Iface` is declared outside this source file
(only its `name`, `index`, `ipv4` and `ipv6` fields are read by ip.rs);
section 6 of the spec has the interface/model layer supply a stable
name-to-index mapping and the per-family observed snapshots. -/
structure Iface where
  name : String
  index : Nat
  ipv4 : Option Ipv4Info
  ipv6 : Option Ipv6Info
deriving DecidableEq

/-- Modelled from the spec: `IfaceConf` (the spec's `InterfaceConfig`) is
declared outside this source file; per section 3 of the spec it is the
per-interface desired state with an optional `AddressConfig` per family, and
`change_ips` additionally reads its `name`. -/
structure IfaceConf where
  name : String
  ipv4 : Option IpConf
  ipv6 : Option IpConf
deriving DecidableEq

/-- Modelled from the spec: the `Default` value of `IfaceConf` used by
`IpConf::apply`'s `..Default::default()` (ip.rs:118-125).  `IfaceConf` is
declared outside this source file with a derived `Default`, whose Rust
semantics give the empty string for `name` and `None` for each option. -/
def IfaceConf.defaultConf : IfaceConf :=
  { name := "", ipv4 := none, ipv6 := none }

/-- Error type `NisporError` is declared outside this source file; the only error
constructed in ip.rs is the conversion of `std::net::AddrParseError` at
`ip_addr_str_to_enum` (ip.rs:352-358), modelled as a configuration error
carrying the offending text.  Channel/transport failures are external and
not part of the program text modelled here. -/
inductive NisporError where
  | invalidIpAddr (address : String)
deriving DecidableEq

/-- Model of `std::net::IpAddr` as used by the add call: the structured value is
determined by the address text. -/
inductive IpAddr where
  | V4 (address : String)
  | V6 (address : String)
deriving DecidableEq

/-- One kernel-channel mutation call.  A delete (ip.rs `handle.address().del`)
carries the raw message handle and the index key it was retrieved under; an
add (ip.rs `handle.address().add`) carries the interface index, address text
and prefix length. -/
inductive NlOp where
  | del (address_full : String) (msg : Nat)
  | add (iface_index : Nat) (address : String) (prefix_len : Nat)
deriving DecidableEq

/-- The `true` on delete operations, for counting delete calls. -/
def NlOp.isDel : NlOp → Bool
  | .del _ _ => true
  | .add _ _ _ => false

/-- Function `ip_addr_str_to_enum` (ip.rs:352-358): sniff the family by syntax, then
parse with the std (external) parser; a parse failure becomes a
configuration error. -/
def ip_addr_str_to_enum (parse4 parse6 : String → Bool) (address : String) :
    Except NisporError IpAddr :=
  if is_ipv6_addr address then
    if parse6 address then Except.ok (IpAddr.V6 address)
    else Except.error (NisporError.invalidIpAddr address)
  else
    if parse4 address then Except.ok (IpAddr.V4 address)
    else Except.error (NisporError.invalidIpAddr address)

/-- Model of `HashSet::insert`: add the element unless already present. -/
def hashSetInsert (s : List IpAddrConf) (a : IpAddrConf) : List IpAddrConf :=
  if a ∈ s then s else s ++ [a]

/-- Building a `HashSet` by inserting every element of a vector, as the
loops at ip.rs:289-300 do. -/
def toHashSet (l : List IpAddrConf) : List IpAddrConf :=
  l.foldl hashSetInsert []

/-- The `format!("{}/{}", address, prefix_len)` key (ip.rs:322-325). -/
def addr_full_key (a : IpAddrConf) : String :=
  a.address ++ "/" ++ toString a.prefix_len

/-- Set difference `&cur_ip_addr_confs - &des_ip_addr_confs` (ip.rs:311): the elements of
`cur` not in `des`. -/
def addrs_to_remove (des cur : List IpAddrConf) : List IpAddrConf :=
  cur.filter (fun a => decide (a ∉ des))

/-- Set difference `&des_ip_addr_confs - &cur_ip_addr_confs` (ip.rs:336): the elements of
`des` not in `cur`. -/
def addrs_to_add (des cur : List IpAddrConf) : List IpAddrConf :=
  des.filter (fun a => decide (a ∉ cur))

/-- Flag `has_ipv6_link_local_in_desire` (ip.rs:301-310), exactly as the source
computes it: the desired list is inspected only under the `Ipv4` family test
and the flag is hard-coded `false` otherwise.  (The surrounding comments in
the source state the opposite intent; see the C1 analysis below.) -/
def has_ipv6_link_local_in_desire (ip_conf : IpConf) (ip_family : IpFamily) :
    Bool :=
  if ip_family = IpFamily.Ipv4 then
    ip_conf.addresses.any
      (fun addr => is_ipv6_unicast_link_local_full addr.address addr.prefix_len)
  else false

/-- The body of `if let Some(nl_addr_msgs) ... if let Some(nl_addr_msg) ...`
(ip.rs:321-332): resolve a diff entry's `address/prefix` key through the
observed index; a missing index or missing key resolves to no operation. -/
def lookup_del : Option (List (String × Nat)) → IpAddrConf → Option NlOp
  | some msgs, a =>
    match msgs.lookup (addr_full_key a) with
    | some msg => some (NlOp.del (addr_full_key a) msg)
    | none => none
  | none, _ => none

/-- The removal loop of the Some/Some branch (ip.rs:311-334): for each diff
entry, unless the IPv6 link-local retention clause fires, look the entry's
`address/prefix` key up in the observed index and issue a delete for the
found record; a missing index (or missing key) is silently skipped. -/
def run_removes (nl_addr_msgs : Option (List (String × Nat))) (ip_conf : IpConf)
    (ip_family : IpFamily) (to_remove : List IpAddrConf) : List NlOp :=
  to_remove.filterMap (fun addr_to_remove =>
    if !(ip_family == IpFamily.Ipv6
        && !(has_ipv6_link_local_in_desire ip_conf ip_family)
        && is_ipv6_unicast_link_local_full addr_to_remove.address
            addr_to_remove.prefix_len) then
      lookup_del nl_addr_msgs addr_to_remove
    else none)

/-- An add loop (ip.rs:274-284 and ip.rs:336-346): convert each address text
via `ip_addr_str_to_enum` and issue the add; the first conversion failure
aborts the loop, keeping the operations already issued (no rollback). -/
def run_adds (parse4 parse6 : String → Bool) (iface_index : Nat) :
    List IpAddrConf → List NlOp × Option NisporError
  | [] => ([], none)
  | a :: rest =>
    match ip_addr_str_to_enum parse4 parse6 a.address with
    | Except.error e => ([], some e)
    | Except.ok _ =>
      let r := run_adds parse4 parse6 iface_index rest
      (NlOp.add iface_index a.address a.prefix_len :: r.1, r.2)

/-- Function `apply_ip_conf` (ip.rs:231-350), as the trace of channel calls it issues
plus its terminal error, by the four-way match on `(ip_conf, cur_ip_conf)`:
nothing; family-filtered bulk delete with IPv6 link-local retention;
unconditional adds; set diff with retention, deletes resolved through the
observed index, then adds. -/
def apply_ip_conf (parse4 parse6 : String → Bool)
    (nl_addr_msgs : Option (List (String × Nat))) (iface_index : Nat)
    (ip_conf : Option IpConf) (cur_ip_conf : Option IpConf)
    (ip_family : IpFamily) : List NlOp × Option NisporError :=
  match ip_conf, cur_ip_conf with
  | none, none => ([], none)
  | none, some _ =>
    match nl_addr_msgs with
    | some msgs =>
      (msgs.filterMap (fun km =>
        match ip_family with
        | IpFamily.Ipv4 =>
          if !(is_ipv6_addr km.1) then some (NlOp.del km.1 km.2) else none
        | IpFamily.Ipv6 =>
          if is_ipv6_addr km.1 && !(is_ipv6_unicast_link_local km.1) then
            some (NlOp.del km.1 km.2)
          else none), none)
    | none => ([], none)
  | some conf, none => run_adds parse4 parse6 iface_index conf.addresses
  | some conf, some cur_conf =>
    let des := toHashSet conf.addresses
    let cur := toHashSet cur_conf.addresses
    let del_ops := run_removes nl_addr_msgs conf ip_family (addrs_to_remove des cur)
    let r := run_adds parse4 parse6 iface_index (addrs_to_add des cur)
    (del_ops ++ r.1, r.2)

/-- Function `change_ips` (ip.rs:197-229): per requested interface in caller order,
skip it when absent from the current-state map, otherwise run the IPv4 pass
then the IPv6 pass against the interface's observed-index entry, stopping at
the first error. -/
def change_ips (parse4 parse6 : String → Bool) (ifaces : List IfaceConf)
    (cur_ifaces : List (String × Iface))
    (iface_2_nl_addr_msgs : List (Nat × List (String × Nat))) :
    List NlOp × Option NisporError :=
  match ifaces with
  | [] => ([], none)
  | iface :: rest =>
    match cur_ifaces.lookup iface.name with
    | none => change_ips parse4 parse6 rest cur_ifaces iface_2_nl_addr_msgs
    | some cur_iface =>
      match apply_ip_conf parse4 parse6
          (iface_2_nl_addr_msgs.lookup cur_iface.index) cur_iface.index
          iface.ipv4 (cur_iface.ipv4.map ipConfOfIpv4Info) IpFamily.Ipv4 with
      | (o4, some e) => (o4, some e)
      | (o4, none) =>
        match apply_ip_conf parse4 parse6
            (iface_2_nl_addr_msgs.lookup cur_iface.index) cur_iface.index
            iface.ipv6 (cur_iface.ipv6.map ipConfOfIpv6Info) IpFamily.Ipv6 with
        | (o6, some e) => (o4 ++ o6, some e)
        | (o6, none) =>
          (o4 ++ o6
              ++ (change_ips parse4 parse6 rest cur_ifaces iface_2_nl_addr_msgs).1,
            (change_ips parse4 parse6 rest cur_ifaces iface_2_nl_addr_msgs).2)

/-- Method `IpConf::apply` (ip.rs:109-131): wrap the per-family config into an
`IfaceConf` whose other fields are `Default::default()` (in particular the
name is the default empty string), then run `change_ips` for the single
requested interface against the singleton current-state map. -/
def IpConf.apply (parse4 parse6 : String → Bool) (conf : IpConf)
    (cur_iface : Iface) (family : IpFamily)
    (iface_2_nl_addr_msgs : List (Nat × List (String × Nat))) :
    List NlOp × Option NisporError :=
  let iface : IfaceConf :=
    match family with
    | IpFamily.Ipv4 => { IfaceConf.defaultConf with ipv4 := some conf }
    | IpFamily.Ipv6 => { IfaceConf.defaultConf with ipv6 := some conf }
  change_ips parse4 parse6 [iface] [(cur_iface.name, cur_iface)]
    iface_2_nl_addr_msgs

/-- Membership after folding `hashSetInsert` over a list. -/
theorem mem_foldl_hashSetInsert (l : List IpAddrConf) :
    ∀ (acc : List IpAddrConf) (a : IpAddrConf),
      a ∈ l.foldl hashSetInsert acc ↔ a ∈ acc ∨ a ∈ l := by
  induction l with
  | nil => intro acc a; simp
  | cons b l ih =>
    intro acc a
    rw [List.foldl_cons, ih]
    unfold hashSetInsert
    by_cases hb : b ∈ acc
    · rw [if_pos hb]
      constructor
      · rintro (h | h)
        · exact Or.inl h
        · exact Or.inr (List.mem_cons_of_mem _ h)
      · rintro (h | h)
        · exact Or.inl h
        · rcases List.mem_cons.mp h with h | h
          · exact Or.inl (h ▸ hb)
          · exact Or.inr h
    · rw [if_neg hb]
      constructor
      · rintro (h | h)
        · rcases List.mem_append.mp h with h | h
          · exact Or.inl h
          · exact Or.inr (List.mem_cons.mpr (Or.inl (List.mem_singleton.mp h)))
        · exact Or.inr (List.mem_cons_of_mem _ h)
      · rintro (h | h)
        · exact Or.inl (List.mem_append.mpr (Or.inl h))
        · rcases List.mem_cons.mp h with h | h
          · exact Or.inl (List.mem_append.mpr (Or.inr (h ▸ List.mem_singleton_self _)))
          · exact Or.inr h

/-- The insertion-built set has the same members as the source vector. -/
theorem mem_toHashSet (l : List IpAddrConf) (a : IpAddrConf) :
    a ∈ toHashSet l ↔ a ∈ l := by
  rw [toHashSet, mem_foldl_hashSetInsert]
  simp

/-- Folding `hashSetInsert` preserves duplicate-freedom. -/
theorem nodup_foldl_hashSetInsert (l : List IpAddrConf) :
    ∀ acc : List IpAddrConf, acc.Nodup → (l.foldl hashSetInsert acc).Nodup := by
  induction l with
  | nil => intro acc h; simpa using h
  | cons b l ih =>
    intro acc h
    rw [List.foldl_cons]
    apply ih
    unfold hashSetInsert
    by_cases hb : b ∈ acc
    · rwa [if_pos hb]
    · rw [if_neg hb]
      refine List.Nodup.append h (List.nodup_singleton b) ?_
      intro x hx hxb
      rw [List.mem_singleton] at hxb
      subst hxb
      exact hb hx

/-- The insertion-built set is duplicate-free, as a `HashSet` is. -/
theorem nodup_toHashSet (l : List IpAddrConf) : (toHashSet l).Nodup :=
  nodup_foldl_hashSetInsert l [] List.nodup_nil

/-- Membership in the `cur − des` diff. -/
theorem mem_addrs_to_remove (des cur : List IpAddrConf) (a : IpAddrConf) :
    a ∈ addrs_to_remove des cur ↔ a ∈ cur ∧ a ∉ des := by
  simp [addrs_to_remove]

/-- Membership in the `des − cur` diff. -/
theorem mem_addrs_to_add (des cur : List IpAddrConf) (a : IpAddrConf) :
    a ∈ addrs_to_add des cur ↔ a ∈ des ∧ a ∉ cur := by
  simp [addrs_to_add]

/-- A `filterMap` emits one element per input on which the function fires. -/
theorem length_filterMap_eq_length_filter {α β : Type} (f : α → Option β)
    (l : List α) :
    (l.filterMap f).length = (l.filter (fun a => (f a).isSome)).length := by
  induction l with
  | nil => rfl
  | cons a l ih =>
    cases h : f a <;>
      simp [List.filterMap_cons, List.filter_cons, h, ih]

/-- Every operation an add loop issues is an add. -/
theorem run_adds_isDel_false (parse4 parse6 : String → Bool) (ii : Nat)
    (l : List IpAddrConf) :
    ∀ op ∈ (run_adds parse4 parse6 ii l).1, op.isDel = false := by
  induction l with
  | nil => intro op h; simp [run_adds] at h
  | cons a l ih =>
    intro op h
    rw [run_adds] at h
    cases hp : ip_addr_str_to_enum parse4 parse6 a.address with
    | error e => rw [hp] at h; simp at h
    | ok v =>
      rw [hp] at h
      rcases List.mem_cons.mp h with h | h
      · rw [h]; rfl
      · exact ih op h

/-- An add loop over texts that all convert issues exactly one add per entry
and then continues with the rest. -/
theorem run_adds_append_ok (parse4 parse6 : String → Bool) (ii : Nat)
    (pre l : List IpAddrConf)
    (h : ∀ e ∈ pre, ∃ v, ip_addr_str_to_enum parse4 parse6 e.address = Except.ok v) :
    run_adds parse4 parse6 ii (pre ++ l) =
      ((pre.map fun e => NlOp.add ii e.address e.prefix_len)
          ++ (run_adds parse4 parse6 ii l).1,
        (run_adds parse4 parse6 ii l).2) := by
  induction pre with
  | nil => simp
  | cons a pre ih =>
    obtain ⟨v, hv⟩ := h a (List.mem_cons_self a pre)
    have ih' := ih (fun e he => h e (List.mem_cons_of_mem a he))
    simp only [List.cons_append, run_adds, hv, List.append_eq, ih', List.map_cons]

/-- Every operation the removal loop issues is a delete. -/
theorem run_removes_isDel_true (nl : Option (List (String × Nat)))
    (conf : IpConf) (fam : IpFamily) (l : List IpAddrConf) :
    ∀ op ∈ run_removes nl conf fam l, op.isDel = true := by
  intro op h
  rw [run_removes] at h
  obtain ⟨e, _, he⟩ := List.mem_filterMap.mp h
  by_cases hc : (!(fam == IpFamily.Ipv6
      && !(has_ipv6_link_local_in_desire conf fam)
      && is_ipv6_unicast_link_local_full e.address e.prefix_len)) = true
  · rw [if_pos hc] at he
    cases nl with
    | none => simp [lookup_del] at he
    | some msgs =>
      cases hm : msgs.lookup (addr_full_key e) with
      | none => simp [lookup_del, hm] at he
      | some m =>
        simp only [lookup_del, hm] at he
        cases he
        rfl
  · rw [if_neg hc] at he
    simp at he

/-- Elements the removal loop issues come from diff entries: each delete
carries the key of a non-retained entry found in the index. -/
theorem mem_run_removes (msgs : List (String × Nat)) (conf : IpConf)
    (fam : IpFamily) (l : List IpAddrConf) (op : NlOp) :
    op ∈ run_removes (some msgs) conf fam l →
      ∃ e ∈ l, ∃ m, msgs.lookup (addr_full_key e) = some m
        ∧ op = NlOp.del (addr_full_key e) m := by
  intro h
  rw [run_removes] at h
  obtain ⟨e, hel, he⟩ := List.mem_filterMap.mp h
  by_cases hc : (!(fam == IpFamily.Ipv6
      && !(has_ipv6_link_local_in_desire conf fam)
      && is_ipv6_unicast_link_local_full e.address e.prefix_len)) = true
  · rw [if_pos hc] at he
    cases hm : msgs.lookup (addr_full_key e) with
    | none => simp [lookup_del, hm] at he
    | some m =>
      simp only [lookup_del, hm] at he
      cases he
      exact ⟨e, hel, m, hm, rfl⟩
  · rw [if_neg hc] at he
    simp at he

/-- Delete membership in a family-filter bulk pass: the record keyed `k` is
deleted exactly when the predicate holds of `k`. -/
theorem bulk_del_mem (P : String → Bool) (msgs : List (String × Nat))
    (k : String) (m : Nat) :
    NlOp.del k m ∈ msgs.filterMap
        (fun km => if P km.1 then some (NlOp.del km.1 km.2) else none) ↔
      (k, m) ∈ msgs ∧ P k = true := by
  rw [List.mem_filterMap]
  constructor
  · rintro ⟨⟨k', m'⟩, hmem, hf⟩
    by_cases hp : P k' = true
    · rw [if_pos hp] at hf
      cases hf
      exact ⟨hmem, hp⟩
    · rw [if_neg hp] at hf
      simp at hf
  · rintro ⟨hmem, hp⟩
    exact ⟨(k, m), hmem, by rw [if_pos hp]⟩

/-- Claim C1, evaluated at the input that decides it.  With family IPv6,
desired `{fe80::2/64}` (which IS a unicast-link-local entry, third conjunct
first line), current `{fe80::1/64}` and the observed index holding the key
`fe80::1/64`, the claim says the link-local entry `fe80::1/64` of `toRemove`
(second conjunct) must be deleted.  The code instead computes
`has_ipv6_link_local_in_desire` under an `ip_family == IpFamily::Ipv4` test
and hard-codes it `false` for the IPv6 pass (ip.rs:301-310), so the
retention clause always fires for IPv6: the engine issues only the add and
never the delete — contradicting the claim and the source's own comments
(ip.rs:192-196, ip.rs:312-313). -/
theorem C1_link_local_desire_flag_code_bug :
    is_ipv6_unicast_link_local_full "fe80::2" 64 = true ∧
    (⟨"fe80::1", 64⟩ : IpAddrConf) ∈
      addrs_to_remove (toHashSet [⟨"fe80::2", 64⟩]) (toHashSet [⟨"fe80::1", 64⟩]) ∧
    ([("fe80::1/64", 7)] : List (String × Nat)).lookup "fe80::1/64" = some 7 ∧
    apply_ip_conf (fun _ => true) (fun _ => true) (some [("fe80::1/64", 7)]) 1
        (some ⟨[⟨"fe80::2", 64⟩]⟩) (some ⟨[⟨"fe80::1", 64⟩]⟩) IpFamily.Ipv6
      = ([NlOp.add 1 "fe80::2" 64], none) ∧
    NlOp.del "fe80::1/64" 7 ∉
      (apply_ip_conf (fun _ => true) (fun _ => true) (some [("fe80::1/64", 7)]) 1
        (some ⟨[⟨"fe80::2", 64⟩]⟩) (some ⟨[⟨"fe80::1", 64⟩]⟩) IpFamily.Ipv6).1 := by
  decide

/-- Claim C3: in the Some/Some branch the delete candidates are exactly
`current − desired` and the add candidates exactly `desired − current`,
under `IpAddrConf` value equality; an entry present in both is in neither.
The candidate sets are stated by membership, which is independent of the
(arbitrary) hash-set iteration order. -/
theorem C3_diff_sets_exact (desired current : IpConf) (e : IpAddrConf) :
    (e ∈ addrs_to_remove (toHashSet desired.addresses) (toHashSet current.addresses) ↔
      e ∈ current.addresses ∧ e ∉ desired.addresses) ∧
    (e ∈ addrs_to_add (toHashSet desired.addresses) (toHashSet current.addresses) ↔
      e ∈ desired.addresses ∧ e ∉ current.addresses) ∧
    (e ∈ desired.addresses → e ∈ current.addresses →
      e ∉ addrs_to_remove (toHashSet desired.addresses) (toHashSet current.addresses) ∧
      e ∉ addrs_to_add (toHashSet desired.addresses) (toHashSet current.addresses)) := by
  refine ⟨?_, ?_, ?_⟩
  · rw [mem_addrs_to_remove, mem_toHashSet, mem_toHashSet]
  · rw [mem_addrs_to_add, mem_toHashSet, mem_toHashSet]
  · intro h1 h2
    constructor
    · rw [mem_addrs_to_remove, mem_toHashSet, mem_toHashSet]
      exact fun h => h.2 h1
    · rw [mem_addrs_to_add, mem_toHashSet, mem_toHashSet]
      exact fun h => h.2 h2

/-- Witness for C3 at a concrete diff: desired `{A, B}`, current `{B, C}`
with `B` in both. -/
theorem C3_diff_sets_exact_witness :
    ((⟨"192.0.2.3", 24⟩ : IpAddrConf) ∈
      addrs_to_remove (toHashSet (IpConf.mk [⟨"192.0.2.1", 24⟩, ⟨"192.0.2.2", 24⟩]).addresses)
        (toHashSet (IpConf.mk [⟨"192.0.2.2", 24⟩, ⟨"192.0.2.3", 24⟩]).addresses) ↔
      (⟨"192.0.2.3", 24⟩ : IpAddrConf) ∈ (IpConf.mk [⟨"192.0.2.2", 24⟩, ⟨"192.0.2.3", 24⟩]).addresses ∧
      (⟨"192.0.2.3", 24⟩ : IpAddrConf) ∉ (IpConf.mk [⟨"192.0.2.1", 24⟩, ⟨"192.0.2.2", 24⟩]).addresses) ∧
    ((⟨"192.0.2.3", 24⟩ : IpAddrConf) ∈
      addrs_to_add (toHashSet (IpConf.mk [⟨"192.0.2.1", 24⟩, ⟨"192.0.2.2", 24⟩]).addresses)
        (toHashSet (IpConf.mk [⟨"192.0.2.2", 24⟩, ⟨"192.0.2.3", 24⟩]).addresses) ↔
      (⟨"192.0.2.3", 24⟩ : IpAddrConf) ∈ (IpConf.mk [⟨"192.0.2.1", 24⟩, ⟨"192.0.2.2", 24⟩]).addresses ∧
      (⟨"192.0.2.3", 24⟩ : IpAddrConf) ∉ (IpConf.mk [⟨"192.0.2.2", 24⟩, ⟨"192.0.2.3", 24⟩]).addresses) ∧
    ((⟨"192.0.2.3", 24⟩ : IpAddrConf) ∈ (IpConf.mk [⟨"192.0.2.1", 24⟩, ⟨"192.0.2.2", 24⟩]).addresses →
      (⟨"192.0.2.3", 24⟩ : IpAddrConf) ∈ (IpConf.mk [⟨"192.0.2.2", 24⟩, ⟨"192.0.2.3", 24⟩]).addresses →
      (⟨"192.0.2.3", 24⟩ : IpAddrConf) ∉
        addrs_to_remove (toHashSet (IpConf.mk [⟨"192.0.2.1", 24⟩, ⟨"192.0.2.2", 24⟩]).addresses)
          (toHashSet (IpConf.mk [⟨"192.0.2.2", 24⟩, ⟨"192.0.2.3", 24⟩]).addresses) ∧
      (⟨"192.0.2.3", 24⟩ : IpAddrConf) ∉
        addrs_to_add (toHashSet (IpConf.mk [⟨"192.0.2.1", 24⟩, ⟨"192.0.2.2", 24⟩]).addresses)
          (toHashSet (IpConf.mk [⟨"192.0.2.2", 24⟩, ⟨"192.0.2.3", 24⟩]).addresses)) :=
  C3_diff_sets_exact (IpConf.mk [⟨"192.0.2.1", 24⟩, ⟨"192.0.2.2", 24⟩])
    (IpConf.mk [⟨"192.0.2.2", 24⟩, ⟨"192.0.2.3", 24⟩]) ⟨"192.0.2.3", 24⟩

/-- Claim C4: when the current set of (address, prefix) entries equals the
desired set, the Some/Some pass issues zero deletes and zero adds and
succeeds, whichever the family. -/
theorem C4_idempotence (parse4 parse6 : String → Bool)
    (nl : Option (List (String × Nat))) (ii : Nat) (desired current : IpConf)
    (fam : IpFamily)
    (h : ∀ e : IpAddrConf, e ∈ current.addresses ↔ e ∈ desired.addresses) :
    apply_ip_conf parse4 parse6 nl ii (some desired) (some current) fam
      = ([], none) := by
  have hrem : addrs_to_remove (toHashSet desired.addresses)
      (toHashSet current.addresses) = [] := by
    rw [addrs_to_remove, List.filter_eq_nil_iff]
    intro a ha
    rw [mem_toHashSet] at ha
    simp only [decide_eq_true_eq, not_not, mem_toHashSet]
    exact (h a).mp ha
  have hadd : addrs_to_add (toHashSet desired.addresses)
      (toHashSet current.addresses) = [] := by
    rw [addrs_to_add, List.filter_eq_nil_iff]
    intro a ha
    rw [mem_toHashSet] at ha
    simp only [decide_eq_true_eq, not_not, mem_toHashSet]
    exact (h a).mpr ha
  simp only [apply_ip_conf, hrem, hadd, run_removes, run_adds,
    List.filterMap_nil, List.nil_append]

/-- Witness for C4: current already equals desired (same two IPv4 entries,
listed in a different order), zero operations. -/
theorem C4_idempotence_witness :
    (∀ e : IpAddrConf,
      e ∈ (IpConf.mk [⟨"192.0.2.2", 24⟩, ⟨"192.0.2.1", 24⟩]).addresses ↔
      e ∈ (IpConf.mk [⟨"192.0.2.1", 24⟩, ⟨"192.0.2.2", 24⟩]).addresses) ∧
    apply_ip_conf (fun _ => true) (fun _ => true) (some [("192.0.2.1/24", 3)]) 1
      (some (IpConf.mk [⟨"192.0.2.1", 24⟩, ⟨"192.0.2.2", 24⟩]))
      (some (IpConf.mk [⟨"192.0.2.2", 24⟩, ⟨"192.0.2.1", 24⟩])) IpFamily.Ipv4
      = ([], none) :=
  ⟨by intro e; simp only [List.mem_cons, List.not_mem_nil, or_false]; tauto,
    C4_idempotence (fun _ => true) (fun _ => true) (some [("192.0.2.1/24", 3)]) 1
      (IpConf.mk [⟨"192.0.2.1", 24⟩, ⟨"192.0.2.2", 24⟩])
      (IpConf.mk [⟨"192.0.2.2", 24⟩, ⟨"192.0.2.1", 24⟩]) IpFamily.Ipv4
      (by intro e; simp only [List.mem_cons, List.not_mem_nil, or_false]; tauto)⟩

/-- Claim C6: the per-family conversion to an `AddressConfig` keeps exactly
the (address, prefix-length) pairs of the snapshot records whose
`valid_lft` is `"forever"`, for both the IPv4 and the IPv6 snapshot. -/
theorem C6_forever_only (info4 : Ipv4Info) (info6 : Ipv6Info) (e : IpAddrConf) :
    (e ∈ (ipConfOfIpv4Info info4).addresses ↔
      ∃ a ∈ info4.addresses, a.valid_lft = "forever" ∧
        (⟨a.address, a.prefix_len⟩ : IpAddrConf) = e) ∧
    (e ∈ (ipConfOfIpv6Info info6).addresses ↔
      ∃ a ∈ info6.addresses, a.valid_lft = "forever" ∧
        (⟨a.address, a.prefix_len⟩ : IpAddrConf) = e) := by
  constructor
  · simp [ipConfOfIpv4Info, and_assoc]
  · simp [ipConfOfIpv6Info, and_assoc]

/-- Witness for C6: a snapshot mixing a `"forever"` record and a transient
(`"42"`-second) record keeps exactly the former. -/
theorem C6_forever_only_witness :
    ((⟨"192.0.2.1", 24⟩ : IpAddrConf) ∈
      (ipConfOfIpv4Info (Ipv4Info.mk
        [⟨"192.0.2.1", 24, none, "forever", "forever"⟩,
         ⟨"192.0.2.9", 24, none, "42", "42"⟩])).addresses ↔
      ∃ a ∈ (Ipv4Info.mk
        [⟨"192.0.2.1", 24, none, "forever", "forever"⟩,
         ⟨"192.0.2.9", 24, none, "42", "42"⟩]).addresses,
        a.valid_lft = "forever" ∧
          (⟨a.address, a.prefix_len⟩ : IpAddrConf) = ⟨"192.0.2.1", 24⟩) ∧
    ((⟨"192.0.2.1", 24⟩ : IpAddrConf) ∈
      (ipConfOfIpv6Info (Ipv6Info.mk [⟨"2001:db8::1", 64, "42", "42"⟩])).addresses ↔
      ∃ a ∈ (Ipv6Info.mk [⟨"2001:db8::1", 64, "42", "42"⟩]).addresses,
        a.valid_lft = "forever" ∧
          (⟨a.address, a.prefix_len⟩ : IpAddrConf) = ⟨"192.0.2.1", 24⟩) :=
  C6_forever_only
    (Ipv4Info.mk
      [⟨"192.0.2.1", 24, none, "forever", "forever"⟩,
       ⟨"192.0.2.9", 24, none, "42", "42"⟩])
    (Ipv6Info.mk [⟨"2001:db8::1", 64, "42", "42"⟩]) ⟨"192.0.2.1", 24⟩

/-- A family-filter bulk pass issues only deletes. -/
theorem bulk_del_isDel (P : String → Bool) (msgs : List (String × Nat)) :
    ∀ op ∈ msgs.filterMap
        (fun km => if P km.1 then some (NlOp.del km.1 km.2) else none),
      op.isDel = true := by
  intro op h
  obtain ⟨km, _, hf⟩ := List.mem_filterMap.mp h
  by_cases hp : P km.1 = true
  · rw [if_pos hp] at hf; cases hf; rfl
  · rw [if_neg hp] at hf; simp at hf

/-- The Some/Some branch unfolded: deletes of the resolved diff entries,
then the add loop over the other diff; the error is the add loop's. -/
theorem apply_some_some_eq (parse4 parse6 : String → Bool)
    (nl : Option (List (String × Nat))) (ii : Nat) (des cur : IpConf)
    (fam : IpFamily) :
    apply_ip_conf parse4 parse6 nl ii (some des) (some cur) fam
      = (run_removes nl des fam
            (addrs_to_remove (toHashSet des.addresses) (toHashSet cur.addresses))
          ++ (run_adds parse4 parse6 ii
            (addrs_to_add (toHashSet des.addresses) (toHashSet cur.addresses))).1,
        (run_adds parse4 parse6 ii
          (addrs_to_add (toHashSet des.addresses) (toHashSet cur.addresses))).2) :=
  rfl

/-- The None/Some bulk pass never errors. -/
theorem apply_none_some_snd (parse4 parse6 : String → Bool)
    (nl : Option (List (String × Nat))) (ii : Nat) (cur : IpConf)
    (fam : IpFamily) :
    (apply_ip_conf parse4 parse6 nl ii none (some cur) fam).2 = none := by
  cases nl <;> rfl

/-- The removal loop issues one delete per diff entry that is not retained
and whose key resolves in the index. -/
theorem run_removes_length (msgs : List (String × Nat)) (conf : IpConf)
    (fam : IpFamily) (l : List IpAddrConf) :
    (run_removes (some msgs) conf fam l).length
      = (l.filter (fun e =>
          !(fam == IpFamily.Ipv6 && !(has_ipv6_link_local_in_desire conf fam)
            && is_ipv6_unicast_link_local_full e.address e.prefix_len)
          && (msgs.lookup (addr_full_key e)).isSome)).length := by
  rw [run_removes, length_filterMap_eq_length_filter]
  congr 1
  apply List.filter_congr
  intro e _
  by_cases hc : (!(fam == IpFamily.Ipv6
      && !(has_ipv6_link_local_in_desire conf fam)
      && is_ipv6_unicast_link_local_full e.address e.prefix_len)) = true
  · rw [if_pos hc, hc, Bool.true_and]
    cases hm : msgs.lookup (addr_full_key e) with
    | none => simp [lookup_del, hm]
    | some m => simp [lookup_del, hm]
  · rw [if_neg hc]
    rw [Bool.not_eq_true] at hc
    rw [hc, Bool.false_and]
    rfl

/-- Splitting a list by whether an option-valued function fires: the firing
and non-firing parts partition the length. -/
theorem length_filter_isSome_add {α β : Type} (f : α → Option β) (l : List α) :
    (l.filter (fun a => (f a).isSome)).length
      + (l.filter (fun a => (f a).isNone)).length = l.length := by
  induction l with
  | nil => rfl
  | cons a l ih =>
    cases h : f a <;> simp [List.filter_cons, h] <;> omega

/-- Unfolding one interface of `change_ips` when it is absent from the
current-state map: the interface is skipped. -/
theorem change_ips_cons_none (parse4 parse6 : String → Bool) (iface : IfaceConf)
    (rest : List IfaceConf) (cur_ifaces : List (String × Iface))
    (idx : List (Nat × List (String × Nat)))
    (h : cur_ifaces.lookup iface.name = none) :
    change_ips parse4 parse6 (iface :: rest) cur_ifaces idx
      = change_ips parse4 parse6 rest cur_ifaces idx := by
  rw [change_ips, h]

/-- Unfolding one interface of `change_ips` when both family passes
succeed: its IPv4 ops, then its IPv6 ops, then the remaining interfaces. -/
theorem change_ips_cons_some_ok (parse4 parse6 : String → Bool)
    (iface : IfaceConf) (rest : List IfaceConf)
    (cur_ifaces : List (String × Iface))
    (idx : List (Nat × List (String × Nat))) (cur_iface : Iface)
    (h : cur_ifaces.lookup iface.name = some cur_iface)
    (h4 : (apply_ip_conf parse4 parse6 (idx.lookup cur_iface.index)
        cur_iface.index iface.ipv4 (cur_iface.ipv4.map ipConfOfIpv4Info)
        IpFamily.Ipv4).2 = none)
    (h6 : (apply_ip_conf parse4 parse6 (idx.lookup cur_iface.index)
        cur_iface.index iface.ipv6 (cur_iface.ipv6.map ipConfOfIpv6Info)
        IpFamily.Ipv6).2 = none) :
    change_ips parse4 parse6 (iface :: rest) cur_ifaces idx
      = ((apply_ip_conf parse4 parse6 (idx.lookup cur_iface.index)
            cur_iface.index iface.ipv4 (cur_iface.ipv4.map ipConfOfIpv4Info)
            IpFamily.Ipv4).1
          ++ (apply_ip_conf parse4 parse6 (idx.lookup cur_iface.index)
            cur_iface.index iface.ipv6 (cur_iface.ipv6.map ipConfOfIpv6Info)
            IpFamily.Ipv6).1
          ++ (change_ips parse4 parse6 rest cur_ifaces idx).1,
        (change_ips parse4 parse6 rest cur_ifaces idx).2) := by
  simp only [change_ips, h]
  cases hA : apply_ip_conf parse4 parse6 (idx.lookup cur_iface.index)
      cur_iface.index iface.ipv4 (cur_iface.ipv4.map ipConfOfIpv4Info)
      IpFamily.Ipv4 with
  | mk o4 e4 =>
    rw [hA] at h4
    have he4 : e4 = none := h4
    subst he4
    cases hB : apply_ip_conf parse4 parse6 (idx.lookup cur_iface.index)
        cur_iface.index iface.ipv6 (cur_iface.ipv6.map ipConfOfIpv6Info)
        IpFamily.Ipv6 with
    | mk o6 e6 =>
      rw [hB] at h6
      have he6 : e6 = none := h6
      subst he6
      rfl

/-- Unfolding one interface of `change_ips` when its IPv4 pass succeeds:
whatever the IPv6 pass and the remaining interfaces do, the trace starts
with the IPv4 ops then the IPv6 ops. -/
theorem change_ips_cons_some_start (parse4 parse6 : String → Bool)
    (iface : IfaceConf) (rest : List IfaceConf)
    (cur_ifaces : List (String × Iface))
    (idx : List (Nat × List (String × Nat))) (cur_iface : Iface)
    (h : cur_ifaces.lookup iface.name = some cur_iface)
    (h4 : (apply_ip_conf parse4 parse6 (idx.lookup cur_iface.index)
        cur_iface.index iface.ipv4 (cur_iface.ipv4.map ipConfOfIpv4Info)
        IpFamily.Ipv4).2 = none) :
    ∃ tl err,
      change_ips parse4 parse6 (iface :: rest) cur_ifaces idx
        = ((apply_ip_conf parse4 parse6 (idx.lookup cur_iface.index)
              cur_iface.index iface.ipv4 (cur_iface.ipv4.map ipConfOfIpv4Info)
              IpFamily.Ipv4).1
            ++ (apply_ip_conf parse4 parse6 (idx.lookup cur_iface.index)
              cur_iface.index iface.ipv6 (cur_iface.ipv6.map ipConfOfIpv6Info)
              IpFamily.Ipv6).1
            ++ tl, err) := by
  simp only [change_ips, h]
  cases hA : apply_ip_conf parse4 parse6 (idx.lookup cur_iface.index)
      cur_iface.index iface.ipv4 (cur_iface.ipv4.map ipConfOfIpv4Info)
      IpFamily.Ipv4 with
  | mk o4 e4 =>
    rw [hA] at h4
    have he4 : e4 = none := h4
    subst he4
    cases hB : apply_ip_conf parse4 parse6 (idx.lookup cur_iface.index)
        cur_iface.index iface.ipv6 (cur_iface.ipv6.map ipConfOfIpv6Info)
        IpFamily.Ipv6 with
    | mk o6 e6 =>
      cases e6 with
      | none =>
        exact ⟨(change_ips parse4 parse6 rest cur_ifaces idx).1,
          (change_ips parse4 parse6 rest cur_ifaces idx).2, rfl⟩
      | some e =>
        refine ⟨[], some e, ?_⟩
        rw [List.append_nil]

/-- Membership of a delete in an IPv6 bulk pass, introduction form. -/
theorem apply_none_some_del_mem_v6 (parse4 parse6 : String → Bool)
    (msgs : List (String × Nat)) (ii : Nat) (c : IpConf) (k : String) (m : Nat)
    (hkm : (k, m) ∈ msgs) (hk : is_ipv6_addr k = true)
    (hll : is_ipv6_unicast_link_local k = false) :
    NlOp.del k m ∈
      (apply_ip_conf parse4 parse6 (some msgs) ii none (some c)
        IpFamily.Ipv6).1 :=
  (bulk_del_mem (fun s => is_ipv6_addr s && !(is_ipv6_unicast_link_local s))
    msgs k m).mpr ⟨hkm, by rw [hk, hll]; rfl⟩

/-- Membership of a delete in an IPv4 bulk pass, introduction form. -/
theorem apply_none_some_del_mem_v4 (parse4 parse6 : String → Bool)
    (msgs : List (String × Nat)) (ii : Nat) (c : IpConf) (k : String) (m : Nat)
    (hkm : (k, m) ∈ msgs) (hk : is_ipv6_addr k = false) :
    NlOp.del k m ∈
      (apply_ip_conf parse4 parse6 (some msgs) ii none (some c)
        IpFamily.Ipv4).1 :=
  (bulk_del_mem (fun s => !(is_ipv6_addr s)) msgs k m).mpr
    ⟨hkm, by rw [hk]; rfl⟩

/-- Claim C2: in the desired = None, current = Some branch, a record of the
observed index is deleted exactly when it belongs to the family — for IPv4
when its key has no colon, for IPv6 when its key is IPv6 syntax and its
`address/prefix` is not unicast link-local — and the branch issues no adds
and no error. -/
theorem C2_bulk_removal_with_retention (parse4 parse6 : String → Bool)
    (msgs : List (String × Nat)) (ii : Nat) (cur : IpConf) (fam : IpFamily)
    (k : String) (m : Nat) :
    (apply_ip_conf parse4 parse6 (some msgs) ii none (some cur) fam).2 = none ∧
    (fam = IpFamily.Ipv4 →
      (NlOp.del k m ∈
          (apply_ip_conf parse4 parse6 (some msgs) ii none (some cur) fam).1 ↔
        (k, m) ∈ msgs ∧ is_ipv6_addr k = false)) ∧
    (fam = IpFamily.Ipv6 →
      (NlOp.del k m ∈
          (apply_ip_conf parse4 parse6 (some msgs) ii none (some cur) fam).1 ↔
        (k, m) ∈ msgs ∧ is_ipv6_addr k = true
          ∧ is_ipv6_unicast_link_local k = false)) ∧
    (∀ j a p, NlOp.add j a p ∉
      (apply_ip_conf parse4 parse6 (some msgs) ii none (some cur) fam).1) := by
  refine ⟨?_, ?_, ?_, ?_⟩
  · cases fam <;> rfl
  · rintro rfl
    have h := bulk_del_mem (fun s => !(is_ipv6_addr s)) msgs k m
    rw [Bool.not_eq_true'] at h
    exact h
  · rintro rfl
    have h := bulk_del_mem
      (fun s => is_ipv6_addr s && !(is_ipv6_unicast_link_local s)) msgs k m
    rw [Bool.and_eq_true, Bool.not_eq_true'] at h
    exact h
  · intro j a p h
    cases fam with
    | Ipv4 =>
      exact absurd (bulk_del_isDel (fun s => !(is_ipv6_addr s)) msgs _ h)
        (by simp [NlOp.isDel])
    | Ipv6 =>
      exact absurd (bulk_del_isDel
        (fun s => is_ipv6_addr s && !(is_ipv6_unicast_link_local s)) msgs _ h)
        (by simp [NlOp.isDel])

/-- Witness for C2: an IPv6 bulk pass over an index holding only the
link-local record `fe80::1/64`. -/
theorem C2_bulk_removal_with_retention_witness :
    (apply_ip_conf (fun _ => true) (fun _ => true) (some [("fe80::1/64", 5)]) 1
        none (some (IpConf.mk [])) IpFamily.Ipv6).2 = none ∧
    (IpFamily.Ipv6 = IpFamily.Ipv4 →
      (NlOp.del "fe80::1/64" 5 ∈
          (apply_ip_conf (fun _ => true) (fun _ => true) (some [("fe80::1/64", 5)]) 1
            none (some (IpConf.mk [])) IpFamily.Ipv6).1 ↔
        ("fe80::1/64", 5) ∈ [("fe80::1/64", 5)]
          ∧ is_ipv6_addr "fe80::1/64" = false)) ∧
    (IpFamily.Ipv6 = IpFamily.Ipv6 →
      (NlOp.del "fe80::1/64" 5 ∈
          (apply_ip_conf (fun _ => true) (fun _ => true) (some [("fe80::1/64", 5)]) 1
            none (some (IpConf.mk [])) IpFamily.Ipv6).1 ↔
        ("fe80::1/64", 5) ∈ [("fe80::1/64", 5)]
          ∧ is_ipv6_addr "fe80::1/64" = true
          ∧ is_ipv6_unicast_link_local "fe80::1/64" = false)) ∧
    (∀ j a p, NlOp.add j a p ∉
      (apply_ip_conf (fun _ => true) (fun _ => true) (some [("fe80::1/64", 5)]) 1
        none (some (IpConf.mk [])) IpFamily.Ipv6).1) :=
  C2_bulk_removal_with_retention (fun _ => true) (fun _ => true)
    [("fe80::1/64", 5)] 1 (IpConf.mk []) IpFamily.Ipv6 "fe80::1/64" 5

/-- An ASCII character list's UTF-8 bytes are just its character codes. -/
theorem flatMap_charUtf8_ascii (l : List Char) :
    (∀ c ∈ l, c.toNat < 128) → l.flatMap charUtf8 = l.map Char.toNat := by
  induction l with
  | nil => intro _; rfl
  | cons c l ih =>
    intro hl
    rw [List.flatMap_cons, List.map_cons,
      ih (fun d hd => hl d (List.mem_cons_of_mem c hd))]
    have hc : charUtf8 c = [c.toNat] := by
      unfold charUtf8
      rw [if_pos (hl c (List.mem_cons_self c l))]
    rw [hc]
    rfl

/-- An ASCII string's UTF-8 bytes are just its character codes. -/
theorem utf8Bytes_ascii (s : String) (h : ∀ c ∈ s.data, c.toNat < 128) :
    utf8Bytes s = s.data.map Char.toNat :=
  flatMap_charUtf8_ascii s.data h

/-- Indexing with default 0 into a list of small bytes stays small. -/
theorem getD_lt_128 (l : List Nat) (h : ∀ b ∈ l, b < 128) (n : Nat) :
    l.getD n 0 < 128 := by
  induction l generalizing n with
  | nil => simp [List.getD]
  | cons a l ih =>
    cases n with
    | zero => simpa using h a (List.mem_cons_self a l)
    | succ n =>
      rw [List.getD_cons_succ]
      exact ih (fun b hb => h b (List.mem_cons_of_mem a hb)) n

/-- Every byte of a piece produced by `splitByte` is a byte of the input. -/
theorem splitByte_mem_subset (sep : Nat) (bs : List Nat) :
    ∀ piece ∈ splitByte sep bs, ∀ b ∈ piece, b ∈ bs := by
  induction bs with
  | nil =>
    intro piece hp b hb
    simp only [splitByte, List.mem_singleton] at hp
    subst hp
    simp at hb
  | cons a bs ih =>
    intro piece hp b hb
    simp only [splitByte] at hp
    by_cases ha : a = sep
    · rw [if_pos ha] at hp
      rcases List.mem_cons.mp hp with h1 | h1
      · subst h1; simp at hb
      · exact List.mem_cons_of_mem _ (ih piece h1 b hb)
    · rw [if_neg ha] at hp
      cases hr : splitByte sep bs with
      | nil =>
        rw [hr] at hp
        have hp' : piece ∈ [[a]] := hp
        rw [List.mem_singleton] at hp'
        subst hp'
        have hba : b = a := List.mem_singleton.mp hb
        subst hba
        exact List.mem_cons_self b bs
      | cons hd tl =>
        rw [hr] at hp
        have hp' : piece ∈ (a :: hd) :: tl := hp
        rcases List.mem_cons.mp hp' with h1 | h1
        · subst h1
          rcases List.mem_cons.mp hb with h2 | h2
          · subst h2; exact List.mem_cons_self b bs
          · have hh : hd ∈ splitByte sep bs := by
              rw [hr]; exact List.mem_cons_self hd tl
            exact List.mem_cons_of_mem _ (ih hd hh b h2)
        · have ht : piece ∈ splitByte sep bs := by
            rw [hr]; exact List.mem_cons_of_mem _ h1
          exact List.mem_cons_of_mem _ (ih piece ht b hb)

/-- The two-argument link-local test cannot panic on all-ASCII bytes: byte
offset 3 is then always a character boundary. -/
theorem full_b_total_of_ascii (ip : List Nat) (hip : ∀ b ∈ ip, b < 128)
    (plen : Nat) :
    ∃ bb, is_ipv6_unicast_link_local_full_b ip plen = some bb := by
  unfold is_ipv6_unicast_link_local_full_b
  split_ifs with h1 h2 h3
  · exact ⟨false, rfl⟩
  · exact ⟨false, rfl⟩
  · exfalso
    have hlt : ip.getD 3 0 < 128 := getD_lt_128 ip hip 3
    simp only [isUtf8ContByte, Bool.and_eq_true, decide_eq_true_eq] at h3
    omega
  · exact ⟨_, rfl⟩

/-- The combined-text link-local test cannot panic on all-ASCII bytes. -/
theorem one_b_total_of_ascii (bs : List Nat) (hip : ∀ b ∈ bs, b < 128) :
    ∃ bb, is_ipv6_unicast_link_local_b bs = some bb := by
  simp only [is_ipv6_unicast_link_local_b]
  by_cases hlen : (splitByte 47 bs).length = 2
  · obtain ⟨x, y, hxy⟩ := List.length_eq_two.mp hlen
    rw [hxy]
    rw [if_pos (show ([x, y] : List (List Nat)).length = 2 from rfl)]
    simp only [List.getD_cons_succ, List.getD_cons_zero]
    cases hp : parse_u8_b y with
    | none => exact ⟨false, rfl⟩
    | some plen =>
      have hx : ∀ b ∈ x, b < 128 := fun b hb =>
        hip b (splitByte_mem_subset 47 bs x
          (by rw [hxy]; exact List.mem_cons_self x [y]) b hb)
      exact full_b_total_of_ascii x hx plen
  · rw [if_neg hlen]
    exact ⟨false, rfl⟩

/-- Claim C5, corrected.  As stated over EVERY input string the claim is
false: Rust's `&ip[..3]` slice in `is_ipv6_unicast_link_local_full`
(ip.rs:137) panics when the string has more than three bytes and byte
offset 3 falls inside a multi-byte UTF-8 character.  `":日"` (bytes
58, 230, 151, 165) contains a colon, is 4 bytes long, and byte 3 is a
continuation byte: both link-local tests panic (modelled as `none`), instead
of returning false for this malformed input. -/
theorem C5_counterexample :
    utf8Bytes ":日" = [58, 230, 151, 165] ∧
    isUtf8ContByte ((utf8Bytes ":日").getD 3 0) = true ∧
    is_ipv6_unicast_link_local_full_b (utf8Bytes ":日") 10 = none ∧
    is_ipv6_unicast_link_local_b (utf8Bytes ":日/10") = none := by
  decide

/-- Claim C5 amended: for every ASCII input string (every character code
below 128) and prefix length, the classifiers return a boolean and never
panic — the IPv6 test is a total colon scan, and both link-local tests
always return `some` — and malformed input yields false (in particular a
combined text without exactly one slash-separated pieces pair). -/
theorem C5_classifiers_total_on_ascii (s : String) (plen : Nat)
    (h : ∀ c ∈ s.data, c.toNat < 128) :
    (∃ bb, is_ipv6_unicast_link_local_full_b (utf8Bytes s) plen = some bb) ∧
    (∃ bb, is_ipv6_unicast_link_local_b (utf8Bytes s) = some bb) ∧
    ((splitByte 47 (utf8Bytes s)).length ≠ 2 →
      is_ipv6_unicast_link_local_b (utf8Bytes s) = some false) := by
  have hb : ∀ b ∈ utf8Bytes s, b < 128 := by
    rw [utf8Bytes_ascii s h]
    intro b hb
    obtain ⟨c, hc, rfl⟩ := List.mem_map.mp hb
    exact h c hc
  refine ⟨full_b_total_of_ascii (utf8Bytes s) hb plen,
    one_b_total_of_ascii (utf8Bytes s) hb, ?_⟩
  intro hlen
  simp only [is_ipv6_unicast_link_local_b]
  rw [if_neg hlen]

/-- Witness for the amended C5 at the ASCII string `fe80::1` (no slash, so
also a malformed combined text). -/
theorem C5_classifiers_total_on_ascii_witness :
    (∃ bb, is_ipv6_unicast_link_local_full_b (utf8Bytes "fe80::1") 64 = some bb) ∧
    (∃ bb, is_ipv6_unicast_link_local_b (utf8Bytes "fe80::1") = some bb) ∧
    ((splitByte 47 (utf8Bytes "fe80::1")).length ≠ 2 →
      is_ipv6_unicast_link_local_b (utf8Bytes "fe80::1") = some false) :=
  C5_classifiers_total_on_ascii "fe80::1" 64 (by decide)

/-- Claim C7: within one family pass every delete precedes every add (the
trace splits as deletes then adds, whichever branch ran); per interface the
IPv4 pass's operations precede the IPv6 pass's, which precede those of the
later interfaces, and interfaces are processed in caller-supplied order
(an interface absent from the current-state map is skipped). -/
theorem C7_sequencing (parse4 parse6 : String → Bool)
    (nl : Option (List (String × Nat))) (ii : Nat)
    (dconf cconf : Option IpConf) (fam : IpFamily)
    (iface : IfaceConf) (rest : List IfaceConf)
    (cur_ifaces : List (String × Iface))
    (idx : List (Nat × List (String × Nat))) (cur_iface : Iface) :
    (∃ dels adds,
      (apply_ip_conf parse4 parse6 nl ii dconf cconf fam).1 = dels ++ adds ∧
      (∀ op ∈ dels, op.isDel = true) ∧ (∀ op ∈ adds, op.isDel = false)) ∧
    (cur_ifaces.lookup iface.name = none →
      change_ips parse4 parse6 (iface :: rest) cur_ifaces idx
        = change_ips parse4 parse6 rest cur_ifaces idx) ∧
    (cur_ifaces.lookup iface.name = some cur_iface →
      (apply_ip_conf parse4 parse6 (idx.lookup cur_iface.index)
          cur_iface.index iface.ipv4 (cur_iface.ipv4.map ipConfOfIpv4Info)
          IpFamily.Ipv4).2 = none →
      (apply_ip_conf parse4 parse6 (idx.lookup cur_iface.index)
          cur_iface.index iface.ipv6 (cur_iface.ipv6.map ipConfOfIpv6Info)
          IpFamily.Ipv6).2 = none →
      change_ips parse4 parse6 (iface :: rest) cur_ifaces idx
        = ((apply_ip_conf parse4 parse6 (idx.lookup cur_iface.index)
              cur_iface.index iface.ipv4 (cur_iface.ipv4.map ipConfOfIpv4Info)
              IpFamily.Ipv4).1
            ++ (apply_ip_conf parse4 parse6 (idx.lookup cur_iface.index)
              cur_iface.index iface.ipv6 (cur_iface.ipv6.map ipConfOfIpv6Info)
              IpFamily.Ipv6).1
            ++ (change_ips parse4 parse6 rest cur_ifaces idx).1,
          (change_ips parse4 parse6 rest cur_ifaces idx).2)) := by
  refine ⟨?_, ?_, ?_⟩
  · cases dconf with
    | none =>
      cases cconf with
      | none => exact ⟨[], [], rfl, by simp, by simp⟩
      | some c =>
        cases nl with
        | none => exact ⟨[], [], rfl, by simp, by simp⟩
        | some msgs =>
          refine ⟨(apply_ip_conf parse4 parse6 (some msgs) ii none (some c) fam).1,
            [], (List.append_nil _).symm, ?_, by simp⟩
          intro op h
          cases fam with
          | Ipv4 => exact bulk_del_isDel (fun s => !(is_ipv6_addr s)) msgs op h
          | Ipv6 =>
            exact bulk_del_isDel
              (fun s => is_ipv6_addr s && !(is_ipv6_unicast_link_local s)) msgs op h
    | some conf =>
      cases cconf with
      | none =>
        refine ⟨[], (apply_ip_conf parse4 parse6 nl ii (some conf) none fam).1,
          rfl, by simp, ?_⟩
        exact fun op h => run_adds_isDel_false parse4 parse6 ii conf.addresses op h
      | some cur_conf =>
        refine ⟨run_removes nl conf fam
            (addrs_to_remove (toHashSet conf.addresses) (toHashSet cur_conf.addresses)),
          (run_adds parse4 parse6 ii
            (addrs_to_add (toHashSet conf.addresses) (toHashSet cur_conf.addresses))).1,
          rfl, ?_, ?_⟩
        · exact fun op h => run_removes_isDel_true nl conf fam _ op h
        · exact fun op h => run_adds_isDel_false parse4 parse6 ii _ op h
  · exact change_ips_cons_none parse4 parse6 iface rest cur_ifaces idx
  · exact change_ips_cons_some_ok parse4 parse6 iface rest cur_ifaces idx cur_iface

/-- Witness for C7 on a one-interface run: desired `{192.0.2.1/24}` for
IPv4 on `eth0`, current state empty for both families. -/
theorem C7_sequencing_witness :
    (∃ dels adds,
      (apply_ip_conf (fun _ => true) (fun _ => true) none 2
        (some (IpConf.mk [⟨"192.0.2.1", 24⟩])) none IpFamily.Ipv4).1
        = dels ++ adds ∧
      (∀ op ∈ dels, op.isDel = true) ∧ (∀ op ∈ adds, op.isDel = false)) ∧
    (([("eth0", Iface.mk "eth0" 2 none none)] : List (String × Iface)).lookup
        (IfaceConf.mk "eth0" (some (IpConf.mk [⟨"192.0.2.1", 24⟩])) none).name = none →
      change_ips (fun _ => true) (fun _ => true)
          [IfaceConf.mk "eth0" (some (IpConf.mk [⟨"192.0.2.1", 24⟩])) none]
          [("eth0", Iface.mk "eth0" 2 none none)] []
        = change_ips (fun _ => true) (fun _ => true) []
            [("eth0", Iface.mk "eth0" 2 none none)] []) ∧
    (([("eth0", Iface.mk "eth0" 2 none none)] : List (String × Iface)).lookup
        (IfaceConf.mk "eth0" (some (IpConf.mk [⟨"192.0.2.1", 24⟩])) none).name
        = some (Iface.mk "eth0" 2 none none) →
      (apply_ip_conf (fun _ => true) (fun _ => true)
          (([] : List (Nat × List (String × Nat))).lookup (Iface.mk "eth0" 2 none none).index)
          (Iface.mk "eth0" 2 none none).index
          (IfaceConf.mk "eth0" (some (IpConf.mk [⟨"192.0.2.1", 24⟩])) none).ipv4
          ((Iface.mk "eth0" 2 none none).ipv4.map ipConfOfIpv4Info)
          IpFamily.Ipv4).2 = none →
      (apply_ip_conf (fun _ => true) (fun _ => true)
          (([] : List (Nat × List (String × Nat))).lookup (Iface.mk "eth0" 2 none none).index)
          (Iface.mk "eth0" 2 none none).index
          (IfaceConf.mk "eth0" (some (IpConf.mk [⟨"192.0.2.1", 24⟩])) none).ipv6
          ((Iface.mk "eth0" 2 none none).ipv6.map ipConfOfIpv6Info)
          IpFamily.Ipv6).2 = none →
      change_ips (fun _ => true) (fun _ => true)
          [IfaceConf.mk "eth0" (some (IpConf.mk [⟨"192.0.2.1", 24⟩])) none]
          [("eth0", Iface.mk "eth0" 2 none none)] []
        = ((apply_ip_conf (fun _ => true) (fun _ => true)
              (([] : List (Nat × List (String × Nat))).lookup (Iface.mk "eth0" 2 none none).index)
              (Iface.mk "eth0" 2 none none).index
              (IfaceConf.mk "eth0" (some (IpConf.mk [⟨"192.0.2.1", 24⟩])) none).ipv4
              ((Iface.mk "eth0" 2 none none).ipv4.map ipConfOfIpv4Info)
              IpFamily.Ipv4).1
            ++ (apply_ip_conf (fun _ => true) (fun _ => true)
              (([] : List (Nat × List (String × Nat))).lookup (Iface.mk "eth0" 2 none none).index)
              (Iface.mk "eth0" 2 none none).index
              (IfaceConf.mk "eth0" (some (IpConf.mk [⟨"192.0.2.1", 24⟩])) none).ipv6
              ((Iface.mk "eth0" 2 none none).ipv6.map ipConfOfIpv6Info)
              IpFamily.Ipv6).1
            ++ (change_ips (fun _ => true) (fun _ => true) []
                [("eth0", Iface.mk "eth0" 2 none none)] []).1,
          (change_ips (fun _ => true) (fun _ => true) []
            [("eth0", Iface.mk "eth0" 2 none none)] []).2)) :=
  C7_sequencing (fun _ => true) (fun _ => true) none 2
    (some (IpConf.mk [⟨"192.0.2.1", 24⟩])) none IpFamily.Ipv4
    (IfaceConf.mk "eth0" (some (IpConf.mk [⟨"192.0.2.1", 24⟩])) none) []
    [("eth0", Iface.mk "eth0" 2 none none)] [] (Iface.mk "eth0" 2 none none)

/-- Claim C8: a diff entry whose key is absent from the observed index
triggers no delete call and no error (the pass's error is decided by the
add loop alone); the number of delete calls equals the number of
non-retained diff entries whose key resolves, so — when no entry falls
under the IPv6 link-local retention — it is `|toRemove|` minus the number
of unresolvable entries. -/
theorem C8_unresolvable_delete_silent (parse4 parse6 : String → Bool)
    (msgs : List (String × Nat)) (ii : Nat) (des cur : IpConf)
    (fam : IpFamily) :
    (∀ e ∈ addrs_to_remove (toHashSet des.addresses) (toHashSet cur.addresses),
      msgs.lookup (addr_full_key e) = none →
      ∀ m, NlOp.del (addr_full_key e) m ∉
        (apply_ip_conf parse4 parse6 (some msgs) ii (some des) (some cur) fam).1) ∧
    ((apply_ip_conf parse4 parse6 (some msgs) ii (some des) (some cur) fam).2
      = (run_adds parse4 parse6 ii
          (addrs_to_add (toHashSet des.addresses) (toHashSet cur.addresses))).2) ∧
    ((apply_ip_conf parse4 parse6 (some msgs) ii (some des) (some cur) fam).1.countP
        NlOp.isDel
      = ((addrs_to_remove (toHashSet des.addresses) (toHashSet cur.addresses)).filter
          (fun e =>
            !(fam == IpFamily.Ipv6 && !(has_ipv6_link_local_in_desire des fam)
              && is_ipv6_unicast_link_local_full e.address e.prefix_len)
            && (msgs.lookup (addr_full_key e)).isSome)).length) ∧
    ((∀ e ∈ addrs_to_remove (toHashSet des.addresses) (toHashSet cur.addresses),
        (fam == IpFamily.Ipv6 && !(has_ipv6_link_local_in_desire des fam)
          && is_ipv6_unicast_link_local_full e.address e.prefix_len) = false) →
      (apply_ip_conf parse4 parse6 (some msgs) ii (some des) (some cur) fam).1.countP
          NlOp.isDel
        = (addrs_to_remove (toHashSet des.addresses) (toHashSet cur.addresses)).length
          - ((addrs_to_remove (toHashSet des.addresses) (toHashSet cur.addresses)).filter
              (fun e => (msgs.lookup (addr_full_key e)).isNone)).length) := by
  have hcount :
      (apply_ip_conf parse4 parse6 (some msgs) ii (some des) (some cur) fam).1.countP
          NlOp.isDel
        = ((addrs_to_remove (toHashSet des.addresses) (toHashSet cur.addresses)).filter
            (fun e =>
              !(fam == IpFamily.Ipv6 && !(has_ipv6_link_local_in_desire des fam)
                && is_ipv6_unicast_link_local_full e.address e.prefix_len)
              && (msgs.lookup (addr_full_key e)).isSome)).length := by
    rw [apply_some_some_eq]
    rw [List.countP_append]
    have h1 : (run_removes (some msgs) des fam
        (addrs_to_remove (toHashSet des.addresses) (toHashSet cur.addresses))).countP
          NlOp.isDel
        = (run_removes (some msgs) des fam
            (addrs_to_remove (toHashSet des.addresses) (toHashSet cur.addresses))).length :=
      List.countP_eq_length.mpr (run_removes_isDel_true (some msgs) des fam _)
    have h2 : ((run_adds parse4 parse6 ii
        (addrs_to_add (toHashSet des.addresses) (toHashSet cur.addresses))).1).countP
          NlOp.isDel = 0 := by
      rw [List.countP_eq_zero]
      intro op hop
      rw [run_adds_isDel_false parse4 parse6 ii _ op hop]
      simp
    rw [h1, h2, Nat.add_zero, run_removes_length]
  refine ⟨?_, ?_, hcount, ?_⟩
  · intro e he hnone m hmem
    rw [apply_some_some_eq] at hmem
    rcases List.mem_append.mp hmem with h | h
    · obtain ⟨e', _, m', hm', heq⟩ := mem_run_removes msgs des fam _ _ h
      injection heq with hk _
      rw [← hk] at hm'
      rw [hnone] at hm'
      exact Option.noConfusion hm'
    · have := run_adds_isDel_false parse4 parse6 ii _ _ h
      simp [NlOp.isDel] at this
  · rw [apply_some_some_eq]
  · intro hnoskip
    rw [hcount]
    have hfe : ((addrs_to_remove (toHashSet des.addresses)
        (toHashSet cur.addresses)).filter
          (fun e =>
            !(fam == IpFamily.Ipv6 && !(has_ipv6_link_local_in_desire des fam)
              && is_ipv6_unicast_link_local_full e.address e.prefix_len)
            && (msgs.lookup (addr_full_key e)).isSome))
        = ((addrs_to_remove (toHashSet des.addresses)
            (toHashSet cur.addresses)).filter
          (fun e => (msgs.lookup (addr_full_key e)).isSome)) := by
      apply List.filter_congr
      intro e he
      rw [hnoskip e he, Bool.not_false, Bool.true_and]
    rw [hfe]
    have hadd := length_filter_isSome_add
      (fun e => msgs.lookup (addr_full_key e))
      (addrs_to_remove (toHashSet des.addresses) (toHashSet cur.addresses))
    omega

/-- Witness for C8: `toRemove = {192.0.2.1/24, 192.0.2.2/24}` with only the
first key resolvable in the observed index — one delete call, no error. -/
theorem C8_unresolvable_delete_silent_witness :
    (∀ e ∈ addrs_to_remove (toHashSet (IpConf.mk []).addresses)
        (toHashSet (IpConf.mk [⟨"192.0.2.1", 24⟩, ⟨"192.0.2.2", 24⟩]).addresses),
      ([("192.0.2.1/24", 3)] : List (String × Nat)).lookup (addr_full_key e) = none →
      ∀ m, NlOp.del (addr_full_key e) m ∉
        (apply_ip_conf (fun _ => true) (fun _ => true) (some [("192.0.2.1/24", 3)]) 1
          (some (IpConf.mk []))
          (some (IpConf.mk [⟨"192.0.2.1", 24⟩, ⟨"192.0.2.2", 24⟩]))
          IpFamily.Ipv4).1) ∧
    ((apply_ip_conf (fun _ => true) (fun _ => true) (some [("192.0.2.1/24", 3)]) 1
        (some (IpConf.mk []))
        (some (IpConf.mk [⟨"192.0.2.1", 24⟩, ⟨"192.0.2.2", 24⟩]))
        IpFamily.Ipv4).2
      = (run_adds (fun _ => true) (fun _ => true) 1
          (addrs_to_add (toHashSet (IpConf.mk []).addresses)
            (toHashSet (IpConf.mk [⟨"192.0.2.1", 24⟩, ⟨"192.0.2.2", 24⟩]).addresses))).2) ∧
    ((apply_ip_conf (fun _ => true) (fun _ => true) (some [("192.0.2.1/24", 3)]) 1
        (some (IpConf.mk []))
        (some (IpConf.mk [⟨"192.0.2.1", 24⟩, ⟨"192.0.2.2", 24⟩]))
        IpFamily.Ipv4).1.countP NlOp.isDel
      = ((addrs_to_remove (toHashSet (IpConf.mk []).addresses)
          (toHashSet (IpConf.mk [⟨"192.0.2.1", 24⟩, ⟨"192.0.2.2", 24⟩]).addresses)).filter
          (fun e =>
            !(IpFamily.Ipv4 == IpFamily.Ipv6
              && !(has_ipv6_link_local_in_desire (IpConf.mk []) IpFamily.Ipv4)
              && is_ipv6_unicast_link_local_full e.address e.prefix_len)
            && (([("192.0.2.1/24", 3)] : List (String × Nat)).lookup
                (addr_full_key e)).isSome)).length) ∧
    ((∀ e ∈ addrs_to_remove (toHashSet (IpConf.mk []).addresses)
        (toHashSet (IpConf.mk [⟨"192.0.2.1", 24⟩, ⟨"192.0.2.2", 24⟩]).addresses),
        (IpFamily.Ipv4 == IpFamily.Ipv6
          && !(has_ipv6_link_local_in_desire (IpConf.mk []) IpFamily.Ipv4)
          && is_ipv6_unicast_link_local_full e.address e.prefix_len) = false) →
      (apply_ip_conf (fun _ => true) (fun _ => true) (some [("192.0.2.1/24", 3)]) 1
          (some (IpConf.mk []))
          (some (IpConf.mk [⟨"192.0.2.1", 24⟩, ⟨"192.0.2.2", 24⟩]))
          IpFamily.Ipv4).1.countP NlOp.isDel
        = (addrs_to_remove (toHashSet (IpConf.mk []).addresses)
            (toHashSet (IpConf.mk [⟨"192.0.2.1", 24⟩, ⟨"192.0.2.2", 24⟩]).addresses)).length
          - ((addrs_to_remove (toHashSet (IpConf.mk []).addresses)
              (toHashSet (IpConf.mk [⟨"192.0.2.1", 24⟩, ⟨"192.0.2.2", 24⟩]).addresses)).filter
              (fun e => (([("192.0.2.1/24", 3)] : List (String × Nat)).lookup
                (addr_full_key e)).isNone)).length) :=
  C8_unresolvable_delete_silent (fun _ => true) (fun _ => true)
    [("192.0.2.1/24", 3)] 1 (IpConf.mk [])
    (IpConf.mk [⟨"192.0.2.1", 24⟩, ⟨"192.0.2.2", 24⟩]) IpFamily.Ipv4

/-- Claim C9: when a diff entry scheduled for addition has an address text
the structured parser rejects, the pass stops with the configuration error
at that entry: the adds already issued (those listed before it) and all
deletes stay in the trace untouched (no rollback), and no add call is made
for the offending entry. -/
theorem C9_malformed_add_aborts (parse4 parse6 : String → Bool)
    (nl : Option (List (String × Nat))) (ii : Nat) (des cur : IpConf)
    (fam : IpFamily) (pre post : List IpAddrConf) (bad : IpAddrConf)
    (hsplit : addrs_to_add (toHashSet des.addresses) (toHashSet cur.addresses)
      = pre ++ bad :: post)
    (hpre : ∀ e ∈ pre, ∃ v,
      ip_addr_str_to_enum parse4 parse6 e.address = Except.ok v)
    (hbad : ip_addr_str_to_enum parse4 parse6 bad.address
      = Except.error (NisporError.invalidIpAddr bad.address)) :
    apply_ip_conf parse4 parse6 nl ii (some des) (some cur) fam
      = (run_removes nl des fam
            (addrs_to_remove (toHashSet des.addresses) (toHashSet cur.addresses))
          ++ pre.map (fun e => NlOp.add ii e.address e.prefix_len),
        some (NisporError.invalidIpAddr bad.address)) ∧
    NlOp.add ii bad.address bad.prefix_len ∉
      (apply_ip_conf parse4 parse6 nl ii (some des) (some cur) fam).1 := by
  have hb2 : run_adds parse4 parse6 ii (bad :: post)
      = ([], some (NisporError.invalidIpAddr bad.address)) := by
    rw [run_adds, hbad]
  have hadds : run_adds parse4 parse6 ii
      (addrs_to_add (toHashSet des.addresses) (toHashSet cur.addresses))
      = (pre.map (fun e => NlOp.add ii e.address e.prefix_len),
        some (NisporError.invalidIpAddr bad.address)) := by
    rw [hsplit, run_adds_append_ok parse4 parse6 ii pre (bad :: post) hpre, hb2,
      List.append_nil]
  constructor
  · rw [apply_some_some_eq, hadds]
  · intro hmem
    rw [apply_some_some_eq, hadds] at hmem
    rcases List.mem_append.mp hmem with h | h
    · have := run_removes_isDel_true nl des fam _ _ h
      simp [NlOp.isDel] at this
    · obtain ⟨e, he, heq⟩ := List.mem_map.mp h
      injection heq with _ h1 h2
      have heb : e = bad := by
        cases e
        cases bad
        simp only at h1 h2
        rw [h1, h2]
      subst heb
      have hnodup : (addrs_to_add (toHashSet des.addresses)
          (toHashSet cur.addresses)).Nodup :=
        List.Nodup.filter _ (nodup_toHashSet des.addresses)
      rw [hsplit] at hnodup
      rcases List.nodup_append.mp hnodup with ⟨_, _, hdisj⟩
      exact hdisj he (List.mem_cons_self e post)

/-- Witness for C9: the single desired entry `notanip/24` fails the IPv4
parser; the pass performs nothing and surfaces the configuration error. -/
theorem C9_malformed_add_aborts_witness :
    apply_ip_conf (fun _ => false) (fun _ => false) none 1
        (some (IpConf.mk [⟨"notanip", 24⟩])) (some (IpConf.mk []))
        IpFamily.Ipv4
      = ([], some (NisporError.invalidIpAddr "notanip")) ∧
    NlOp.add 1 "notanip" 24 ∉
      (apply_ip_conf (fun _ => false) (fun _ => false) none 1
        (some (IpConf.mk [⟨"notanip", 24⟩])) (some (IpConf.mk []))
        IpFamily.Ipv4).1 :=
  C9_malformed_add_aborts (fun _ => false) (fun _ => false) none 1
    (IpConf.mk [⟨"notanip", 24⟩]) (IpConf.mk []) IpFamily.Ipv4 [] []
    ⟨"notanip", 24⟩ (by decide)
    (fun e he => absurd he (List.not_mem_nil e)) rfl

/-- Claim C10, corrected.  `IpConf::apply` builds its one-interface desired
config with `..Default::default()`, so the config's name is the empty
string while the current-state map is keyed by the real interface name:
for any normally named interface the lookup fails and the call is a
complete no-op.  Here `eth0` holds observed non-link-local IPv6 address
`2001:db8::1/64` (in the snapshot and in the index), yet applying an IPv4
config deletes nothing — contradicting the claim that every observed
non-link-local IPv6 address is deleted. -/
theorem C10_counterexample :
    is_ipv6_addr "2001:db8::1/64" = true ∧
    is_ipv6_unicast_link_local "2001:db8::1/64" = false ∧
    IpConf.apply (fun _ => true) (fun _ => true) (IpConf.mk [])
        (Iface.mk "eth0" 1 none
          (some (Ipv6Info.mk [⟨"2001:db8::1", 64, "forever", "forever"⟩])))
        IpFamily.Ipv4 [(1, [("2001:db8::1/64", 5)])]
      = ([], none) ∧
    NlOp.del "2001:db8::1/64" 5 ∉
      (IpConf.apply (fun _ => true) (fun _ => true) (IpConf.mk [])
        (Iface.mk "eth0" 1 none
          (some (Ipv6Info.mk [⟨"2001:db8::1", 64, "forever", "forever"⟩])))
        IpFamily.Ipv4 [(1, [("2001:db8::1/64", 5)])]).1 := by
  decide

/-- Claim C10 amended: the cross-family deletion happens only when the
current interface's name equals the empty string — the default name
`IpConf::apply` gives the constructed config (for any other name the call
is a no-op).  Then applying an IPv4 config leaves desired IPv6 `None`, and
(provided the IPv4 pass succeeds) every indexed record with an IPv6
non-link-local key is deleted; symmetrically an IPv6 apply deletes every
indexed IPv4 record. -/
theorem C10_family_crosstalk (parse4 parse6 : String → Bool) (conf : IpConf)
    (cur_iface : Iface) (idx : List (Nat × List (String × Nat)))
    (hname : cur_iface.name = "") :
    (∀ info6, cur_iface.ipv6 = some info6 →
      (apply_ip_conf parse4 parse6 (idx.lookup cur_iface.index)
          cur_iface.index (some conf) (cur_iface.ipv4.map ipConfOfIpv4Info)
          IpFamily.Ipv4).2 = none →
      ∀ k m, (k, m) ∈ (idx.lookup cur_iface.index).getD [] →
        is_ipv6_addr k = true → is_ipv6_unicast_link_local k = false →
        NlOp.del k m ∈
          (IpConf.apply parse4 parse6 conf cur_iface IpFamily.Ipv4 idx).1) ∧
    (∀ info4, cur_iface.ipv4 = some info4 →
      ∀ k m, (k, m) ∈ (idx.lookup cur_iface.index).getD [] →
        is_ipv6_addr k = false →
        NlOp.del k m ∈
          (IpConf.apply parse4 parse6 conf cur_iface IpFamily.Ipv6 idx).1) := by
  constructor
  · intro info6 h6some h4ok k m hkm hk6 hll
    cases hnl : idx.lookup cur_iface.index with
    | none =>
      rw [hnl] at hkm
      simp at hkm
    | some msgs =>
      rw [hnl] at hkm
      simp only [Option.getD_some] at hkm
      have hlk : List.lookup
          ({ IfaceConf.defaultConf with ipv4 := some conf } : IfaceConf).name
          [(cur_iface.name, cur_iface)] = some cur_iface := by
        rw [hname]
        rfl
      rw [hnl] at h4ok
      obtain ⟨tl, err, heq⟩ := change_ips_cons_some_start parse4 parse6
        { IfaceConf.defaultConf with ipv4 := some conf } []
        [(cur_iface.name, cur_iface)] idx cur_iface hlk
        (by rw [hnl]; exact h4ok)
      have happly : IpConf.apply parse4 parse6 conf cur_iface IpFamily.Ipv4 idx
          = change_ips parse4 parse6
            [{ IfaceConf.defaultConf with ipv4 := some conf }]
            [(cur_iface.name, cur_iface)] idx := rfl
      rw [happly, heq]
      apply List.mem_append_left
      apply List.mem_append_right
      rw [hnl, h6some]
      exact apply_none_some_del_mem_v6 parse4 parse6 msgs cur_iface.index
        (ipConfOfIpv6Info info6) k m hkm hk6 hll
  · intro info4 h4some k m hkm hk4
    cases hnl : idx.lookup cur_iface.index with
    | none =>
      rw [hnl] at hkm
      simp at hkm
    | some msgs =>
      rw [hnl] at hkm
      simp only [Option.getD_some] at hkm
      have hlk : List.lookup
          ({ IfaceConf.defaultConf with ipv6 := some conf } : IfaceConf).name
          [(cur_iface.name, cur_iface)] = some cur_iface := by
        rw [hname]
        rfl
      have h4ok : (apply_ip_conf parse4 parse6 (idx.lookup cur_iface.index)
          cur_iface.index
          ({ IfaceConf.defaultConf with ipv6 := some conf } : IfaceConf).ipv4
          (cur_iface.ipv4.map ipConfOfIpv4Info) IpFamily.Ipv4).2 = none := by
        rw [h4some]
        exact apply_none_some_snd parse4 parse6 (idx.lookup cur_iface.index)
          cur_iface.index (ipConfOfIpv4Info info4) IpFamily.Ipv4
      obtain ⟨tl, err, heq⟩ := change_ips_cons_some_start parse4 parse6
        { IfaceConf.defaultConf with ipv6 := some conf } []
        [(cur_iface.name, cur_iface)] idx cur_iface hlk h4ok
      have happly : IpConf.apply parse4 parse6 conf cur_iface IpFamily.Ipv6 idx
          = change_ips parse4 parse6
            [{ IfaceConf.defaultConf with ipv6 := some conf }]
            [(cur_iface.name, cur_iface)] idx := rfl
      rw [happly, heq]
      apply List.mem_append_left
      apply List.mem_append_left
      rw [hnl, h4some]
      exact apply_none_some_del_mem_v4 parse4 parse6 msgs cur_iface.index
        (ipConfOfIpv4Info info4) k m hkm hk4

/-- Witness for the amended C10: an interface named by the empty string;
an IPv4 apply deletes the indexed IPv6 record `2001:db8::1/64`, an IPv6
apply deletes the indexed IPv4 record `192.0.2.1/24`. -/
theorem C10_family_crosstalk_witness :
    NlOp.del "2001:db8::1/64" 5 ∈
      (IpConf.apply (fun _ => true) (fun _ => true) (IpConf.mk [])
        (Iface.mk "" 1 none
          (some (Ipv6Info.mk [⟨"2001:db8::1", 64, "forever", "forever"⟩])))
        IpFamily.Ipv4 [(1, [("2001:db8::1/64", 5)])]).1 ∧
    NlOp.del "192.0.2.1/24" 9 ∈
      (IpConf.apply (fun _ => true) (fun _ => true) (IpConf.mk [])
        (Iface.mk "" 1 (some (Ipv4Info.mk [])) none)
        IpFamily.Ipv6 [(1, [("192.0.2.1/24", 9)])]).1 :=
  ⟨(C10_family_crosstalk (fun _ => true) (fun _ => true) (IpConf.mk [])
      (Iface.mk "" 1 none
        (some (Ipv6Info.mk [⟨"2001:db8::1", 64, "forever", "forever"⟩])))
      [(1, [("2001:db8::1/64", 5)])] rfl).1
      (Ipv6Info.mk [⟨"2001:db8::1", 64, "forever", "forever"⟩]) rfl
      (by decide) "2001:db8::1/64" 5 (by decide) (by decide) (by decide),
    (C10_family_crosstalk (fun _ => true) (fun _ => true) (IpConf.mk [])
      (Iface.mk "" 1 (some (Ipv4Info.mk [])) none)
      [(1, [("192.0.2.1/24", 9)])] rfl).2
      (Ipv4Info.mk []) rfl "192.0.2.1/24" 9 (by decide) (by decide)⟩

end Nispor
